import Mathlib

set_option maxHeartbeats 1000000
set_option maxRecDepth 4000

/-!
Verification development for the snapshot/versioning and operation-commit
subsystem of a vector-search metadata catalog (milvus), together with two
directly embedded source functions: the timezone normalisation in
Server::Start and the SFContextBuilder test helper.

The catalog core (resource model, store, snapshot folding, operation
protocol, registry, reference counting) is visible in the repository only
through its callers and tests; the definitions below therefore model it
from the specification document, while Server::Start and SFContextBuilder
are translated from the source files themselves.
-/

/-- Modelled from the spec: state of a versioned resource record; the
implementation files of the resource model (db/snapshot) are not in the
source tree. Soft deletion is a tombstone record with state deleted. -/
inductive ResState
  | active
  | deleted
deriving DecidableEq

/-- Modelled from the spec: the six catalog resource kinds of section 3. -/
inductive ResType
  | collection
  | partition
  | segment
  | segmentFile
  | field
  | fieldElement
deriving DecidableEq

/-- Modelled from the spec: a persisted resource record, following the
abstract persisted layout of section 6: type tag, id, parent ids, name,
state and creation LSN. The field parent is the owning parent id (zero
for a Collection); parent2 is the partition id of a SegmentFile and zero
otherwise. -/
structure Record where
  rtype : ResType
  rid : Nat
  parent : Nat
  parent2 : Nat
  name : String
  state : ResState
  lsn : Nat
deriving DecidableEq

/-- Modelled from the spec: an immutable Snapshot holds the records folded
at construction time together with its fixed LSN; it never consults the
Store again (section 4.3). -/
structure Snapshot where
  records : List Record
  ssLsn : Nat
deriving DecidableEq

/-- A record matches a query when both its type tag and its id agree. -/
def matchesRec (t : ResType) (i : Nat) (r : Record) : Bool :=
  r.rtype == t && r.rid == i

/-- One folding step: a matching record supersedes the accumulator. -/
def latestStep (t : ResType) (i : Nat) (a : Option Record) (r : Record) : Option Record :=
  if matchesRec t i r then some r else a

/-- Modelled from the spec: folding picks, for a given type and id, the
record with the greatest LSN at or below the snapshot boundary; since the
record stream is append-ordered this is the last matching record. -/
def latestOf (rs : List Record) (t : ResType) (i : Nat) : Option Record :=
  rs.foldl (latestStep t i) none

/-- Modelled from the spec: GetResource of the Snapshot interface; a
resource is visible when its latest record at the snapshot LSN is active,
and NotFound (none) when absent or soft-deleted. -/
def getResource (ss : Snapshot) (t : ResType) (i : Nat) : Option Record :=
  match latestOf ss.records t i with
  | some r => if r.state == ResState.active then some r else none
  | none => none

/-- Insert an id into a strictly ascending list of ids, keeping it sorted
and duplicate free. -/
def insertId (i : Nat) : List Nat → List Nat
  | [] => [i]
  | j :: js =>
    if i < j then i :: j :: js
    else if i = j then j :: js
    else j :: insertId i js

/-- All ids of records of one type, ascending and duplicate free. -/
def idsOf (rs : List Record) (t : ResType) : List Nat :=
  rs.foldl (fun acc r => if r.rtype == t then insertId r.rid acc else acc) []

/-- Modelled from the spec: GetResources of the Snapshot interface, the
id-ordered mapping of visible resources of one type (section 4.3). -/
def getResources (ss : Snapshot) (t : ResType) : List Record :=
  (idsOf ss.records t).filterMap (fun i => getResource ss t i)

/-- Modelled from the spec: the Resource Store of section 4.1, an
append-only record stream plus the strictly increasing id and LSN
allocators; its implementation (db/snapshot/Store.h) is not in the source
tree. The claims under verification concern a single collection, so one
stream and one LSN counter are modelled. -/
structure Store where
  records : List Record
  nextId : Nat
  nextLsn : Nat
deriving DecidableEq

/-- A fresh store: no records, allocators start at one. -/
def initialStore : Store := ⟨[], 1, 1⟩

/-- Modelled from the spec: Snapshot construction folds every record with
creation LSN at or below the target LSN (section 3). -/
def mkSnapshot (st : Store) (n : Nat) : Snapshot :=
  ⟨st.records.filter (fun r => r.lsn ≤ n), n⟩

/-- Modelled from the spec: the Snapshot Registry entry for the collection,
the latest published snapshot, i.e. the fold at the last allocated LSN. -/
def currentSnapshot (st : Store) : Snapshot :=
  mkSnapshot st (st.nextLsn - 1)

/-- Store sanity: every persisted record was written under an already
allocated id and LSN, so both allocators are strictly ahead of the
stream. -/
def wfStore (st : Store) : Prop :=
  ∀ r ∈ st.records, r.rid < st.nextId ∧ r.lsn < st.nextLsn

/-- Modelled from the spec: the Status taxonomy of section 7 restricted to
the outcomes the claims mention. -/
inductive Status
  | ok
  | invalidContext
  | operationNotPushed
  | storeError
  | notFound
deriving DecidableEq

/-- Modelled from the spec: the Operation state machine of section 4.4,
Pending to Committed to Pushed (with its allocated LSN) or Failed (with
its Status). -/
inductive OpState
  | pending
  | committed
  | pushed (lsn : Nat)
  | failed (e : Status)
deriving DecidableEq

/-- Modelled from the spec: an Operation stages records against a base
Snapshot; staged records carry LSN zero until Push allocates the real
one. -/
structure Operation where
  base : Snapshot
  staged : List Record
  state : OpState
deriving DecidableEq

/-- A freshly created operation over a base snapshot. -/
def newOp (ss : Snapshot) : Operation := ⟨ss, [], OpState.pending⟩

/-- Move an operation to the terminal Failed state carrying a status. -/
def failOp (op : Operation) (e : Status) : Operation :=
  { op with state := OpState.failed e }

/-- Resource kinds that carry a meaningful, uniqueness-checked name. -/
def hasName : ResType → Bool
  | ResType.collection => true
  | ResType.partition => true
  | ResType.field => true
  | ResType.fieldElement => true
  | _ => false

/-- The resource kind of the owning parent, none for a Collection. -/
def parentType : ResType → Option ResType
  | ResType.collection => none
  | ResType.partition => some ResType.collection
  | ResType.segment => some ResType.partition
  | ResType.segmentFile => some ResType.segment
  | ResType.field => some ResType.collection
  | ResType.fieldElement => some ResType.field

/-- Whether an active record of the given type and id is already staged on
the operation (a multi-resource operation may reference a resource it
created itself, e.g. a SegmentFile under the Segment staged just before). -/
def stagedActive (op : Operation) (t : ResType) (i : Nat) : Bool :=
  op.staged.any (fun r => matchesRec t i r && r.state == ResState.active)

/-- Modelled from the spec: the parent-exists-and-is-active validation of
CommitNew (section 4.4), checked against the base snapshot or the records
already staged on the same operation. -/
def parentOkB (op : Operation) (t : ResType) (p : Nat) : Bool :=
  match parentType t with
  | none => true
  | some pt => (getResource op.base pt p).isSome || stagedActive op pt p

/-- Modelled from the spec: whether an active sibling of the same type,
parent and name is visible in a snapshot (the name-uniqueness invariant of
section 3). -/
def activeNameExists (ss : Snapshot) (t : ResType) (p : Nat) (nm : String) : Bool :=
  (getResources ss t).any (fun r => r.parent == p && r.name == nm)

/-- Modelled from the spec: CommitNew of section 4.4. It validates the
context (parent exists and is active, name unique among active siblings),
allocates an id and stages an active record; a violated invariant yields
InvalidContext and moves the operation to Failed. -/
def commitNew (st : Store) (op : Operation) (t : ResType) (p p2 : Nat) (nm : String) :
    Status × Store × Operation × Option Record :=
  if parentOkB op t p = false ∨ (hasName t && activeNameExists op.base t p nm) = true then
    (Status.invalidContext, st, failOp op Status.invalidContext, none)
  else
    (Status.ok,
      { st with nextId := st.nextId + 1 },
      { op with staged := op.staged ++ [⟨t, st.nextId, p, p2, nm, ResState.active, 0⟩],
                state := OpState.committed },
      some ⟨t, st.nextId, p, p2, nm, ResState.active, 0⟩)

/-- Modelled from the spec: staging a tombstone for a resource visible in
the base snapshot (the SoftDeleteOperation building block of section 4.4). -/
def commitDelete (op : Operation) (t : ResType) (i : Nat) : Status × Operation :=
  match getResource op.base t i with
  | some r =>
      (Status.ok,
        { op with staged := op.staged ++ [{ r with state := ResState.deleted, lsn := 0 }],
                  state := OpState.committed })
  | none => (Status.notFound, failOp op Status.notFound)

/-- Modelled from the spec: Push of section 4.4. It allocates a new LSN and
appends every staged record in one atomic batch; on store failure (modelled
by the boolean flag) nothing is appended, no LSN is consumed and the
operation is Failed. -/
def push (st : Store) (op : Operation) (storeOk : Bool) : Status × Store × Operation :=
  if storeOk then
    (Status.ok,
      { st with
          records := st.records ++ op.staged.map (fun r => { r with lsn := st.nextLsn }),
          nextLsn := st.nextLsn + 1 },
      { op with state := OpState.pushed st.nextLsn })
  else
    (Status.storeError, st, failOp op Status.storeError)

/-- Modelled from the spec: GetSnapshot on an Operation (sections 4.3 and
4.4), valid only after Pushed, otherwise OperationNotPushed. -/
def opGetSnapshot (st : Store) (op : Operation) : Except Status Snapshot :=
  match op.state with
  | OpState.pushed l => Except.ok (mkSnapshot st l)
  | _ => Except.error Status.operationNotPushed

/-- Modelled from the spec: a sequence of Push attempts against one
collection, each a batch of staged records plus the store health flag;
returns the final store and the LSNs allocated by the successful pushes,
in order. -/
def runPushes : Store → List (List Record × Bool) → Store × List Nat
  | st, [] => (st, [])
  | st, a :: rest =>
    let r := push st { base := currentSnapshot st, staged := a.1, state := OpState.pending } a.2
    let rec2 := runPushes r.2.1 rest
    match r.2.2.state with
    | OpState.pushed l => (rec2.1, l :: rec2.2)
    | _ => (rec2.1, rec2.2)

/-- Modelled from the spec: the CreateCollectionOperation flow of the test
helper CreateCollection (src/core/unittest/ssdb/utils.h, lines 171-191):
stage the collection, a vector field carrying an ivfsq8 field element and
an int field, then a single Push. -/
def createCollectionFlow (st : Store) (nm : String) : Status × Store × Operation :=
  let op0 := newOp (currentSnapshot st)
  match commitNew st op0 ResType.collection 0 0 nm with
  | (Status.ok, st1, op1, some coll) =>
    match commitNew st1 op1 ResType.field coll.rid 0 "vector" with
    | (Status.ok, st2, op2, some fv) =>
      match commitNew st2 op2 ResType.fieldElement fv.rid 0 "ivfsq8" with
      | (Status.ok, st3, op3, some _) =>
        match commitNew st3 op3 ResType.field coll.rid 0 "int" with
        | (Status.ok, st4, op4, some _) => push st4 op4 true
        | (s, st4, op4, _) => (s, st4, op4)
      | (s, st3, op3, _) => (s, st3, op3)
    | (s, st2, op2, _) => (s, st2, op2)
  | (s, st1, op1, _) => (s, st1, op1)

/-- Modelled from the spec: the Snapshot Registry lookup by collection name
(section 4.5): the current snapshot, provided the collection is visible in
it. -/
def getSnapshotByName (st : Store) (nm : String) : Option (Record × Snapshot) :=
  let ss := currentSnapshot st
  match (getResources ss ResType.collection).find? (fun r => r.name == nm) with
  | some c => some (c, ss)
  | none => none

/-- Modelled from the spec: the CreatePartitionOperation flow of the test
helper CreatePartition (src/core/unittest/ssdb/utils.h, lines 193-226):
look up the collection snapshot, commit one partition, push. -/
def createPartitionFlow (st : Store) (collName pname : String) : Status × Store × Operation :=
  match getSnapshotByName st collName with
  | none => (Status.notFound, st, newOp (currentSnapshot st))
  | some (c, ss) =>
    match commitNew st (newOp ss) ResType.partition c.rid 0 pname with
    | (Status.ok, st1, op1, some _) => push st1 op1 true
    | (s, st1, op1, _) => (s, st1, op1)

/-- The two-step scenario of claim C7: CreateCollection c1 then
CreatePartition p1 under it, starting from the fresh store. -/
def c7Final : Status × Store × Operation :=
  let r1 := createCollectionFlow initialStore "c1"
  createPartitionFlow r1.2.1 "c1" "p1"

/-- The snapshot the scenario of claim C7 hands back through GetSnapshot. -/
def c7SS : Option Snapshot :=
  match opGetSnapshot c7Final.2.1 c7Final.2.2 with
  | Except.ok ss => some ss
  | Except.error _ => none

/-- Modelled from the spec: the reference-counted handle layer of section
4.2 around one Snapshot: the wrapped object (none once torn down), the
count of live handles, and how many times the teardown hook has run. -/
structure ScopedRef where
  obj : Option Snapshot
  count : Nat
  teardowns : Nat
deriving DecidableEq

/-- Modelled from the spec: Acquire increments the count (section 4.2). -/
def acquireRef (r : ScopedRef) : ScopedRef := { r with count := r.count + 1 }

/-- Modelled from the spec: Release decrements the count; at zero the
teardown hook runs exactly once and the object is dropped; a release of an
already released handle is a no-op, never a second teardown (section 4.2). -/
def releaseRef (r : ScopedRef) : ScopedRef :=
  if r.count = 0 then r
  else if r.count = 1 then ⟨none, 0, r.teardowns + 1⟩
  else { r with count := r.count - 1 }

/-- Iterated Acquire. -/
def acquireN : Nat → ScopedRef → ScopedRef
  | 0, r => r
  | n + 1, r => acquireRef (acquireN n r)

/-- Iterated Release. -/
def releaseN : Nat → ScopedRef → ScopedRef
  | 0, r => r
  | n + 1, r => releaseRef (releaseN n r)

/-- Translated from the source: the character class of the C isspace used
by std::stoi while skipping leading whitespace. -/
def cIsSpace (c : Char) : Bool :=
  c == ' ' || c == '\t' || c == '\n' || c == '\x0b' || c == '\x0c' || c == '\r'

/-- Translated from the source: std::stoi on a character sequence. Skips
whitespace, accepts one optional sign, requires at least one digit, parses
the maximal digit run and rejects values outside the int range (both the
missing-digit and the out-of-range exceptions are modelled as none). -/
def stoiChars (cs : List Char) : Option Int :=
  let cs1 := cs.dropWhile cIsSpace
  let sgncs : Int × List Char :=
    match cs1 with
    | '-' :: rest => (-1, rest)
    | '+' :: rest => (1, rest)
    | _ => (1, cs1)
  let ds := sgncs.2.takeWhile Char.isDigit
  match ds with
  | [] => none
  | _ :: _ =>
    let v : Nat := ds.foldl (fun a c => a * 10 + (c.toNat - 48)) 0
    let i : Int := sgncs.1 * (v : Int)
    if i < -2147483648 ∨ 2147483647 < i then none else some i

/-- Translated from the source: std::string::substr(pos), which throws
out_of_range (modelled as none) when pos exceeds the length. -/
def substrFrom (s : String) (pos : Nat) : Option (List Char) :=
  if pos ≤ s.length then some (s.toList.drop pos) else none

/-- Translated from the source: std::stoi(s.substr(pos)). -/
def stoiFrom (s : String) (pos : Nat) : Option Int :=
  match substrFrom s pos with
  | some cs => stoiChars cs
  | none => none

/-- Translated from the source: the timezone normalisation of Server::Start
(src/unnamed/part_000, lines 179-190). Returns the string stored into the
TZ environment variable, or none when std::stoi throws and Start returns
an error without setting TZ. -/
def timezoneToTZ (tz : String) : Option String :=
  if tz.length = 3 then some "CUT"
  else
    match stoiFrom tz 3 with
    | none => none
    | some b =>
      if b = 0 then some "CUT"
      else if 0 < b then some ("CUT" ++ toString (-b))
      else some ("CUT+" ++ toString (-b))

/-- Translated from the source: the fields of SegmentFileContext that
SFContextBuilder and CreateSegment touch (src/core/unittest/ssdb/utils.h). -/
structure SegmentFileContext where
  field_name : String
  field_element_name : String
  segment_id : Nat
  partition_id : Nat
deriving DecidableEq

/-- Translated from the source: SFContextBuilder
(src/core/unittest/ssdb/utils.h, lines 85-100). It copies the name of the
first Field, the name of the first FieldElement when one exists, and, only
when the Segment resource map is non-empty, the id and partition id of the
first Segment. Dereferencing the first Field of an empty map is undefined
behaviour in the source and is modelled as none. -/
def SFContextBuilder (ctx : SegmentFileContext) (sss : Snapshot) : Option SegmentFileContext :=
  match getResources sss ResType.field with
  | [] => none
  | f :: _ =>
    let ctx1 := { ctx with field_name := f.name }
    let ctx2 :=
      match getResources sss ResType.fieldElement with
      | [] => ctx1
      | fe :: _ => { ctx1 with field_element_name := fe.name }
    match getResources sss ResType.segment with
    | [] => some ctx2
    | s :: _ => some { ctx2 with segment_id := s.rid, partition_id := s.parent }

/-- A concrete store used by the witnesses: one collection c1 with a vector
field, its ivfsq8 field element, and a partition p1. -/
def demoStore : Store :=
  ⟨[⟨ResType.collection, 1, 0, 0, "c1", ResState.active, 1⟩,
    ⟨ResType.field, 2, 1, 0, "vector", ResState.active, 1⟩,
    ⟨ResType.fieldElement, 3, 2, 0, "ivfsq8", ResState.active, 1⟩,
    ⟨ResType.partition, 4, 1, 0, "p1", ResState.active, 2⟩], 5, 3⟩

/-- A concrete store whose partition p1 has been soft-deleted: its latest
record is a tombstone. -/
def demoStoreDel : Store :=
  ⟨[⟨ResType.collection, 1, 0, 0, "c1", ResState.active, 1⟩,
    ⟨ResType.partition, 2, 1, 0, "p1", ResState.active, 2⟩,
    ⟨ResType.partition, 2, 1, 0, "p1", ResState.deleted, 3⟩], 3, 4⟩

/-- A concrete store with two active segments under one partition, ready to
be merged. -/
def mergeStore : Store :=
  ⟨[⟨ResType.collection, 1, 0, 0, "c1", ResState.active, 1⟩,
    ⟨ResType.partition, 2, 1, 0, "p1", ResState.active, 1⟩,
    ⟨ResType.segment, 3, 2, 0, "", ResState.active, 2⟩,
    ⟨ResType.segment, 4, 2, 0, "", ResState.active, 2⟩], 5, 3⟩

/-- A committed but not yet pushed operation staging one segment over the
demo store. -/
def demoOp : Operation :=
  ⟨currentSnapshot demoStore,
   [⟨ResType.segment, 5, 4, 0, "", ResState.active, 0⟩],
   OpState.committed⟩

/-- The result of pushing the staged segment of demoOp. -/
def c5Pushed : Status × Store × Operation := push demoStore demoOp true

/-- Folding from a some accumulator can never come back to none. -/
lemma foldl_latest_isSome (t : ResType) (i : Nat) (ys : List Record) (x : Record) :
    (ys.foldl (latestStep t i) (some x)).isSome = true := by
  induction ys generalizing x with
  | nil => rfl
  | cons y ys ih =>
    simp only [List.foldl_cons]
    by_cases h : matchesRec t i y = true
    · simp only [latestStep, h, if_true]
      exact ih y
    · simp only [latestStep, h, if_false, Bool.false_eq_true]
      exact ih x

/-- The last match of a fold absorbs any earlier accumulator. -/
lemma foldl_latest_absorb (t : ResType) (i : Nat) (ys : List Record) (a : Option Record) :
    ys.foldl (latestStep t i) a =
      match ys.foldl (latestStep t i) none with
      | some r => some r
      | none => a := by
  induction ys generalizing a with
  | nil => rfl
  | cons y ys ih =>
    simp only [List.foldl_cons]
    by_cases h : matchesRec t i y = true
    · have h1 : latestStep t i a y = some y := by simp [latestStep, h]
      have h2 : latestStep t i none y = some y := by simp [latestStep, h]
      rw [h1, h2]
      cases hys : ys.foldl (latestStep t i) (some y) with
      | some r => simp [hys]
      | none =>
        have hcontra := foldl_latest_isSome t i ys y
        rw [hys] at hcontra
        simp at hcontra
    · have h1 : latestStep t i a y = a := by simp [latestStep, h]
      have h2 : latestStep t i none y = none := by simp [latestStep, h]
      rw [h1, h2]
      exact ih a

/-- Folding an appended stream: a match in the suffix supersedes the
prefix, otherwise the prefix answer stands. -/
lemma latestOf_append (xs ys : List Record) (t : ResType) (i : Nat) :
    latestOf (xs ++ ys) t i =
      match latestOf ys t i with
      | some r => some r
      | none => latestOf xs t i := by
  unfold latestOf
  rw [List.foldl_append]
  exact foldl_latest_absorb t i ys (xs.foldl (latestStep t i) none)

/-- A stream with no matching record folds to none. -/
lemma latestOf_eq_none (xs : List Record) (t : ResType) (i : Nat)
    (h : ∀ r ∈ xs, matchesRec t i r = false) :
    latestOf xs t i = none := by
  induction xs with
  | nil => rfl
  | cons x xs ih =>
    unfold latestOf at ih ⊢
    simp only [List.foldl_cons]
    have hx : latestStep t i none x = none := by
      simp [latestStep, h x (List.mem_cons_self x xs)]
    rw [hx]
    exact ih (fun r hr => h r (List.mem_cons_of_mem x hr))

/-- The fold answer is a matching member of the stream. -/
lemma latestOf_mem {xs : List Record} {t : ResType} {i : Nat} {r : Record}
    (h : latestOf xs t i = some r) :
    r ∈ xs ∧ matchesRec t i r = true := by
  have key : ∀ (ys : List Record) (a : Option Record),
      ys.foldl (latestStep t i) a = some r →
      a = some r ∨ (r ∈ ys ∧ matchesRec t i r = true) := by
    intro ys
    induction ys with
    | nil => intro a ha; exact Or.inl ha
    | cons y ys ih =>
      intro a ha
      simp only [List.foldl_cons] at ha
      rcases ih (latestStep t i a y) ha with hy | hy
      · by_cases hm : matchesRec t i y = true
        · simp only [latestStep, hm, if_true] at hy
          obtain rfl := Option.some.inj hy
          exact Or.inr ⟨List.mem_cons_self y ys, hm⟩
        · simp only [latestStep, hm, if_false, Bool.false_eq_true] at hy
          exact Or.inl hy
      · exact Or.inr ⟨List.mem_cons_of_mem y hy.1, hy.2⟩
  rcases key xs none h with hb | hb
  · cases hb
  · exact hb

/-- Inverting a visible GetResource answer. -/
lemma getResource_some {ss : Snapshot} {t : ResType} {i : Nat} {r : Record}
    (h : getResource ss t i = some r) :
    latestOf ss.records t i = some r ∧ r.state = ResState.active ∧
    r ∈ ss.records ∧ r.rtype = t ∧ r.rid = i := by
  unfold getResource at h
  cases hl : latestOf ss.records t i with
  | none => rw [hl] at h; cases h
  | some r0 =>
    rw [hl] at h
    dsimp only at h
    by_cases hs : (r0.state == ResState.active) = true
    · rw [if_pos hs] at h
      obtain rfl := Option.some.inj h
      have hm := latestOf_mem hl
      have hmm := hm.2
      unfold matchesRec at hmm
      simp only [Bool.and_eq_true, beq_iff_eq] at hmm
      exact ⟨rfl, by simpa using hs, hm.1, hmm.1, hmm.2⟩
    · rw [if_neg hs] at h
      cases h

/-- GetResource is none at any id no stream record carries. -/
lemma getResource_of_unused (st : Store) (n : Nat) (t : ResType) (i : Nat)
    (h : ∀ r ∈ st.records, r.rid ≠ i) :
    getResource (mkSnapshot st n) t i = none := by
  have hnone : latestOf (mkSnapshot st n).records t i = none := by
    apply latestOf_eq_none
    intro r hr
    have hr' : r ∈ st.records := (List.mem_filter.mp hr).1
    have hne : (r.rid == i) = false := by
      simp only [beq_eq_false_iff_ne, ne_eq]
      exact h r hr'
    simp [matchesRec, hne]
  simp [getResource, hnone]

/-- Inverting a successful CommitNew. -/
lemma commitNew_ok {st st' : Store} {op op' : Operation} {t : ResType} {p p2 : Nat}
    {nm : String} {res : Option Record}
    (h : commitNew st op t p p2 nm = (Status.ok, st', op', res)) :
    st' = { st with nextId := st.nextId + 1 } ∧
    res = some ⟨t, st.nextId, p, p2, nm, ResState.active, 0⟩ ∧
    op' = { op with staged := op.staged ++ [⟨t, st.nextId, p, p2, nm, ResState.active, 0⟩],
                    state := OpState.committed } := by
  unfold commitNew at h
  split at h
  · simp at h
  · simp only [Prod.mk.injEq] at h
    exact ⟨h.2.1.symm, h.2.2.2.symm, h.2.2.1.symm⟩

/-- Inverting a successful CommitDelete. -/
lemma commitDelete_ok {op op' : Operation} {t : ResType} {i : Nat}
    (h : commitDelete op t i = (Status.ok, op')) :
    ∃ r, getResource op.base t i = some r ∧
      op' = { op with staged := op.staged ++ [{ r with state := ResState.deleted, lsn := 0 }],
                      state := OpState.committed } := by
  unfold commitDelete at h
  cases hg : getResource op.base t i with
  | none => rw [hg] at h; simp at h
  | some r =>
    rw [hg] at h
    simp only [Prod.mk.injEq] at h
    exact ⟨r, rfl, h.2.symm⟩

/-- Rendering a negated positive int puts a minus sign before the digits. -/
lemma toString_neg_of_pos (b : Int) (h : 0 < b) :
    toString (-b) = "-" ++ toString b.natAbs := by
  cases b with
  | ofNat n =>
    cases n with
    | zero => simp at h
    | succ m => rfl
  | negSucc m => exact absurd h (by simp)

/-- Rendering a negated negative int drops the sign. -/
lemma toString_neg_of_neg (b : Int) (h : b < 0) :
    toString (-b) = toString b.natAbs := by
  cases b with
  | ofNat n => exact absurd h (by simp)
  | negSucc m => rfl

/-- Claim C9: in Server::Start, a timezone string of length exactly three
sets TZ to CUT; otherwise, with b the integer std::stoi parses from
position three, TZ becomes CUT when b is zero, CUT followed by minus and
the digits of b when b is positive, and CUT plus the digits of the
magnitude of b when b is negative. -/
theorem c9_timezone_env (tz : String) (b : Int) :
    (tz.length = 3 → timezoneToTZ tz = some "CUT") ∧
    (tz.length ≠ 3 → stoiFrom tz 3 = some b →
      (b = 0 → timezoneToTZ tz = some "CUT") ∧
      (0 < b → timezoneToTZ tz = some ("CUT" ++ "-" ++ toString b.natAbs)) ∧
      (b < 0 → timezoneToTZ tz = some ("CUT+" ++ toString b.natAbs))) := by
  constructor
  · intro h
    simp [timezoneToTZ, h]
  · intro h hb
    refine ⟨?_, ?_, ?_⟩
    · intro h0
      unfold timezoneToTZ
      rw [if_neg h, hb]
      dsimp only
      rw [if_pos h0]
    · intro hpos
      have hne : b ≠ 0 := by omega
      unfold timezoneToTZ
      rw [if_neg h, hb]
      dsimp only
      rw [if_neg hne, if_pos hpos, toString_neg_of_pos b hpos, ← String.append_assoc]
    · intro hneg
      have hne : b ≠ 0 := by omega
      have hnp : ¬ 0 < b := by omega
      unfold timezoneToTZ
      rw [if_neg h, hb]
      dsimp only
      rw [if_neg hne, if_neg hnp, toString_neg_of_neg b hneg]

/-- Witness for claim C9 at three concrete timezone strings. -/
theorem c9_timezone_env_witness :
    timezoneToTZ "UTC" = some "CUT" ∧
    timezoneToTZ "UTC+8" = some "CUT-8" ∧
    timezoneToTZ "UTC-5" = some "CUT+5" := by
  refine ⟨(c9_timezone_env "UTC" 0).1 (by decide), ?_, ?_⟩
  · have h := ((c9_timezone_env "UTC+8" 8).2 (by decide) (by decide)).2.1 (by decide)
    rw [h]
    rfl
  · have h := ((c9_timezone_env "UTC-5" (-5)).2 (by decide) (by decide)).2.2 (by decide)
    rw [h]
    rfl

/-- Claim C10: on a snapshot with no visible Segment, SFContextBuilder only
assigns the field name (and the field element name when a FieldElement
exists) and leaves the segment id and partition id of the context exactly
as they were on entry. -/
theorem c10_sfcontext_frame (ctx : SegmentFileContext) (sss : Snapshot)
    (hf : getResources sss ResType.field ≠ [])
    (hs : getResources sss ResType.segment = []) :
    ∃ ctx', SFContextBuilder ctx sss = some ctx' ∧
      ctx'.segment_id = ctx.segment_id ∧
      ctx'.partition_id = ctx.partition_id ∧
      (∀ f rest, getResources sss ResType.field = f :: rest → ctx'.field_name = f.name) ∧
      (∀ fe rest, getResources sss ResType.fieldElement = fe :: rest →
        ctx'.field_element_name = fe.name) ∧
      (getResources sss ResType.fieldElement = [] →
        ctx'.field_element_name = ctx.field_element_name) := by
  cases hfield : getResources sss ResType.field with
  | nil => exact absurd hfield hf
  | cons f fs =>
    cases hfe : getResources sss ResType.fieldElement with
    | nil =>
      refine ⟨{ ctx with field_name := f.name }, ?_, rfl, rfl, ?_, ?_, fun _ => rfl⟩
      · unfold SFContextBuilder
        rw [hfield, hfe, hs]
      · intro f' rest hrg
        injection hrg with h1 _
        rw [h1]
      · intro fe rest hcontra
        exact List.noConfusion hcontra
    | cons fe fes =>
      refine ⟨{ ctx with field_name := f.name, field_element_name := fe.name },
        ?_, rfl, rfl, ?_, ?_, ?_⟩
      · unfold SFContextBuilder
        rw [hfield, hfe, hs]
      · intro f' rest hrg
        injection hrg with h1 _
        rw [h1]
      · intro fe' rest hrg
        injection hrg with h1 _
        rw [h1]
      · intro hcontra
        exact List.noConfusion hcontra

/-- Witness for claim C10 on the demo store, whose snapshot has one field,
one field element and no segments. -/
theorem c10_sfcontext_frame_witness :
    SFContextBuilder ⟨"f0", "fe0", 77, 88⟩ (currentSnapshot demoStore) =
      some ⟨"vector", "ivfsq8", 77, 88⟩ := by
  obtain ⟨ctx', h1, h2, h3, h4, h5, h6⟩ :=
    c10_sfcontext_frame ⟨"f0", "fe0", 77, 88⟩ (currentSnapshot demoStore) (by decide) (by decide)
  have hfn := h4 ⟨ResType.field, 2, 1, 0, "vector", ResState.active, 1⟩ [] (by decide)
  have hfen := h5 ⟨ResType.fieldElement, 3, 2, 0, "ivfsq8", ResState.active, 1⟩ [] (by decide)
  rw [h1]
  cases ctx' with
  | mk a bfe c d =>
    dsimp only at h2 h3 hfn hfen
    rw [hfn, hfen, h2, h3]

/-- Claim C7: CreateCollection c1 (pushed at LSN 1) followed by
CreatePartition p1 (pushed at LSN 2) yields a snapshot whose Partition
resources are exactly one entry named p1, created at LSN 2, whose parent
collection is named c1. -/
theorem c7_create_then_partition :
    (c7SS.map (fun ss =>
      (getResources ss ResType.partition).map
        (fun r => (r.name, r.lsn, (getResource ss ResType.collection r.parent).map Record.name)))) =
    some [("p1", 2, some "c1")] := by decide

/-- Acquire counts up without touching the object or the teardown count. -/
lemma acquireN_spec (o : Option Snapshot) (c td n : Nat) :
    acquireN n ⟨o, c, td⟩ = ⟨o, c + n, td⟩ := by
  induction n with
  | zero => rfl
  | succ m ih =>
    unfold acquireN
    rw [ih]
    rfl

/-- Releasing fewer handles than are held keeps the object alive and the
teardown hook unrun. -/
lemma releaseN_partial (ss : Snapshot) (m k : Nat) (h : k < m) :
    releaseN k ⟨some ss, m, 0⟩ = ⟨some ss, m - k, 0⟩ := by
  induction k with
  | zero => rfl
  | succ k ih =>
    have hk : k < m := Nat.lt_of_succ_lt h
    unfold releaseN
    rw [ih hk]
    unfold releaseRef
    have h1 : ¬(m - k = 0) := by omega
    have h2 : ¬(m - k = 1) := by omega
    rw [if_neg h1, if_neg h2]
    have : m - k - 1 = m - (k + 1) := by omega
    rw [this]

/-- A fully released handle set is inert: further releases change nothing
and in particular never run the teardown hook again. -/
lemma releaseN_dead (k td : Nat) :
    releaseN k ⟨none, 0, td⟩ = ⟨none, 0, td⟩ := by
  induction k with
  | zero => rfl
  | succ k ih =>
    unfold releaseN
    rw [ih]
    rfl

/-- Claim C8: with n acquired handles on a snapshot, releasing n-1 of them
keeps the object alive (still present, teardown never run); the nth
release runs the teardown hook exactly once and drops the object; k
further releases of the dead handle are no-ops, never a second teardown. -/
theorem c8_reference_counting (ss : Snapshot) (n k : Nat) (hn : 1 ≤ n) :
    (releaseN (n - 1) (acquireN n ⟨some ss, 0, 0⟩)).obj = some ss ∧
    (releaseN (n - 1) (acquireN n ⟨some ss, 0, 0⟩)).teardowns = 0 ∧
    (releaseN n (acquireN n ⟨some ss, 0, 0⟩)).teardowns = 1 ∧
    (releaseN n (acquireN n ⟨some ss, 0, 0⟩)).obj = none ∧
    releaseN k (releaseN n (acquireN n ⟨some ss, 0, 0⟩)) =
      releaseN n (acquireN n ⟨some ss, 0, 0⟩) := by
  have hacq : acquireN n ⟨some ss, 0, 0⟩ = ⟨some ss, n, 0⟩ := by
    rw [acquireN_spec]
    simp
  have hone : releaseN (n - 1) (acquireN n ⟨some ss, 0, 0⟩) = ⟨some ss, 1, 0⟩ := by
    rw [hacq, releaseN_partial ss n (n - 1) (by omega)]
    have : n - (n - 1) = 1 := by omega
    rw [this]
  have hlast : releaseN n (acquireN n ⟨some ss, 0, 0⟩) = ⟨none, 0, 1⟩ := by
    obtain ⟨m, rfl⟩ : ∃ m, n = m + 1 := ⟨n - 1, by omega⟩
    show releaseRef (releaseN m (acquireN (m + 1) ⟨some ss, 0, 0⟩)) = ⟨none, 0, 1⟩
    have hone' : releaseN m (acquireN (m + 1) ⟨some ss, 0, 0⟩) = ⟨some ss, 1, 0⟩ := by
      simpa using hone
    rw [hone']
    rfl
  refine ⟨by rw [hone], by rw [hone], by rw [hlast], by rw [hlast], ?_⟩
  rw [hlast, releaseN_dead]

/-- Witness for claim C8 with three handles and two extra dead releases. -/
theorem c8_reference_counting_witness :
    (releaseN 2 (acquireN 3 ⟨some (currentSnapshot demoStore), 0, 0⟩)).obj =
      some (currentSnapshot demoStore) ∧
    (releaseN 2 (acquireN 3 ⟨some (currentSnapshot demoStore), 0, 0⟩)).teardowns = 0 ∧
    (releaseN 3 (acquireN 3 ⟨some (currentSnapshot demoStore), 0, 0⟩)).teardowns = 1 ∧
    (releaseN 3 (acquireN 3 ⟨some (currentSnapshot demoStore), 0, 0⟩)).obj = none ∧
    releaseN 2 (releaseN 3 (acquireN 3 ⟨some (currentSnapshot demoStore), 0, 0⟩)) =
      releaseN 3 (acquireN 3 ⟨some (currentSnapshot demoStore), 0, 0⟩) :=
  c8_reference_counting (currentSnapshot demoStore) 3 2 (by decide)

/-- A push only appends records at the freshly allocated LSN, so every
snapshot folded at an older LSN is exactly the same snapshot. -/
lemma mkSnapshot_push_stable (st : Store) (op : Operation) (okb : Bool) (n : Nat)
    (hn : n < st.nextLsn) :
    mkSnapshot (push st op okb).2.1 n = mkSnapshot st n := by
  cases okb with
  | false => rfl
  | true =>
    unfold push
    rw [if_pos rfl]
    unfold mkSnapshot
    simp only [Snapshot.mk.injEq, and_true]
    rw [List.filter_append]
    have hnil : (op.staged.map (fun r => { r with lsn := st.nextLsn })).filter
        (fun r => decide (r.lsn ≤ n)) = [] := by
      simp only [List.filter_eq_nil_iff]
      intro a ha
      obtain ⟨r, hr, rfl⟩ := List.mem_map.mp ha
      simp only [decide_eq_true_eq]
      omega
    rw [hnil, List.append_nil]

/-- Any sequence of pushes leaves every snapshot folded at a previously
allocated LSN untouched. -/
lemma runPushes_stable (st : Store) (attempts : List (List Record × Bool)) (n : Nat)
    (hn : n < st.nextLsn) :
    mkSnapshot (runPushes st attempts).1 n = mkSnapshot st n := by
  induction attempts generalizing st with
  | nil => rfl
  | cons a rest ih =>
    obtain ⟨recs, okb⟩ := a
    cases okb with
    | false =>
      show mkSnapshot (runPushes st rest).1 n = mkSnapshot st n
      exact ih st hn
    | true =>
      have hstep := mkSnapshot_push_stable st
        ⟨currentSnapshot st, recs, OpState.pending⟩ true n hn
      have hnext : (push st ⟨currentSnapshot st, recs, OpState.pending⟩ true).2.1.nextLsn =
          st.nextLsn + 1 := rfl
      calc mkSnapshot (runPushes st ((recs, true) :: rest)).1 n
          = mkSnapshot (runPushes (push st ⟨currentSnapshot st, recs, OpState.pending⟩ true).2.1
              rest).1 n := rfl
        _ = mkSnapshot (push st ⟨currentSnapshot st, recs, OpState.pending⟩ true).2.1 n := by
              apply ih
              rw [hnext]
              omega
        _ = mkSnapshot st n := hstep

/-- Claim C2: a snapshot handle folded at an already published LSN is
unaffected by any later pushes on the collection, so two GetResource calls
against the same handle always return identical data; the snapshot never
re-reads the store. -/
theorem c2_snapshot_immutability (st : Store) (attempts : List (List Record × Bool)) (n : Nat)
    (hn : n < st.nextLsn) :
    mkSnapshot (runPushes st attempts).1 n = mkSnapshot st n ∧
    ∀ t i, getResource (mkSnapshot (runPushes st attempts).1 n) t i =
      getResource (mkSnapshot st n) t i := by
  have h := runPushes_stable st attempts n hn
  exact ⟨h, fun t i => by rw [h]⟩

/-- Witness for claim C2: one successful and one failed push after the
demo store do not disturb the snapshot at LSN 2. -/
theorem c2_snapshot_immutability_witness :
    mkSnapshot (runPushes demoStore
      [([⟨ResType.segment, 5, 4, 0, "", ResState.active, 0⟩], true), ([], false)]).1 2 =
      mkSnapshot demoStore 2 ∧
    getResource (mkSnapshot (runPushes demoStore
      [([⟨ResType.segment, 5, 4, 0, "", ResState.active, 0⟩], true), ([], false)]).1 2)
        ResType.partition 4 =
      getResource (mkSnapshot demoStore 2) ResType.partition 4 :=
  ⟨(c2_snapshot_immutability demoStore
      [([⟨ResType.segment, 5, 4, 0, "", ResState.active, 0⟩], true), ([], false)] 2
      (by decide)).1,
   (c2_snapshot_immutability demoStore
      [([⟨ResType.segment, 5, 4, 0, "", ResState.active, 0⟩], true), ([], false)] 2
      (by decide)).2 ResType.partition 4⟩

/-- Claim C3: across any sequence of push attempts the successful pushes
are allocated exactly the consecutive LSNs starting at the next free one —
strictly increasing, never reused, and with no gap left behind by the
failed attempts. -/
theorem c3_monotonic_lsn (st : Store) (attempts : List (List Record × Bool)) :
    (runPushes st attempts).2 =
      List.range' st.nextLsn (attempts.filter (fun a => a.2)).length ∧
    List.Pairwise (fun x y => x < y) (runPushes st attempts).2 ∧
    List.Nodup (runPushes st attempts).2 := by
  have key : ∀ (atts : List (List Record × Bool)) (s : Store),
      (runPushes s atts).2 = List.range' s.nextLsn (atts.filter (fun a => a.2)).length := by
    intro atts
    induction atts with
    | nil => intro s; rfl
    | cons a rest ih =>
      intro s
      obtain ⟨recs, okb⟩ := a
      cases okb with
      | false =>
        show (runPushes s rest).2 =
          List.range' s.nextLsn (rest.filter (fun a => a.2)).length
        exact ih s
      | true =>
        show s.nextLsn :: (runPushes
            (push s ⟨currentSnapshot s, recs, OpState.pending⟩ true).2.1 rest).2 =
          List.range' s.nextLsn (((recs, true) :: rest).filter (fun a => a.2)).length
        rw [ih]
        rfl
  refine ⟨key attempts st, ?_, ?_⟩
  · rw [key attempts st]
    exact List.pairwise_lt_range' st.nextLsn _
  · rw [key attempts st]
    exact List.nodup_range' st.nextLsn _

/-- Claim C4: committing a named resource whose name collides with an
active sibling of the same type and parent in the base snapshot fails with
InvalidContext and moves the operation to Failed; when the parent check
passes and every samename sibling is soft-deleted, the creation succeeds. -/
theorem c4_name_uniqueness (st : Store) (op : Operation) (t : ResType) (p p2 : Nat)
    (nm : String) (hname : hasName t = true) :
    (activeNameExists op.base t p nm = true →
      (commitNew st op t p p2 nm).1 = Status.invalidContext ∧
      (commitNew st op t p p2 nm).2.2.1.state = OpState.failed Status.invalidContext) ∧
    (parentOkB op t p = true →
     activeNameExists op.base t p nm = false →
     (∃ i r, latestOf op.base.records t i = some r ∧ r.parent = p ∧ r.name = nm ∧
        r.state = ResState.deleted) →
      (commitNew st op t p p2 nm).1 = Status.ok) := by
  constructor
  · intro hact
    have hcond : parentOkB op t p = false ∨
        (hasName t && activeNameExists op.base t p nm) = true :=
      Or.inr (by simp [hname, hact])
    unfold commitNew
    rw [if_pos hcond]
    exact ⟨rfl, rfl⟩
  · intro hp hact _
    have hcond : ¬(parentOkB op t p = false ∨
        (hasName t && activeNameExists op.base t p nm) = true) := by
      simp [hp, hact]
    unfold commitNew
    rw [if_neg hcond]

/-- Witness for claim C4: creating partition p1 again over the demo store
(whose p1 is active) yields InvalidContext, while creating it over the
store whose p1 is soft-deleted succeeds. -/
theorem c4_name_uniqueness_witness :
    (commitNew demoStore (newOp (currentSnapshot demoStore)) ResType.partition 1 0 "p1").1 =
      Status.invalidContext ∧
    (commitNew demoStoreDel (newOp (currentSnapshot demoStoreDel)) ResType.partition 1 0 "p1").1 =
      Status.ok := by
  constructor
  · exact ((c4_name_uniqueness demoStore (newOp (currentSnapshot demoStore))
      ResType.partition 1 0 "p1" (by decide)).1 (by decide)).1
  · exact (c4_name_uniqueness demoStoreDel (newOp (currentSnapshot demoStoreDel))
      ResType.partition 1 0 "p1" (by decide)).2 (by decide) (by decide)
      ⟨2, ⟨ResType.partition, 2, 1, 0, "p1", ResState.deleted, 3⟩, by decide, rfl, rfl, rfl⟩

/-- Claim C5: GetSnapshot on an operation yields the snapshot published by
the commit exactly in the Pushed state — a fresh operation and a failed
push report OperationNotPushed, a successful push hands back the newly
published current snapshot, and an ok answer can only arise from a Pushed
operation. -/
theorem c5_operation_get_snapshot (st st2 : Store) (op op2 : Operation) (ss : Snapshot) :
    (opGetSnapshot st (newOp ss) = Except.error Status.operationNotPushed) ∧
    (push st op true = (Status.ok, st2, op2) →
      opGetSnapshot st2 op2 = Except.ok (currentSnapshot st2)) ∧
    (push st op false = (Status.storeError, st2, op2) →
      opGetSnapshot st2 op2 = Except.error Status.operationNotPushed) ∧
    ((∀ m, op.state ≠ OpState.pushed m) →
      opGetSnapshot st op = Except.error Status.operationNotPushed) ∧
    (opGetSnapshot st op = Except.ok ss →
      op.state = OpState.pushed ss.ssLsn ∧ ss = mkSnapshot st ss.ssLsn) := by
  refine ⟨rfl, ?_, ?_, ?_, ?_⟩
  · intro h
    unfold push at h
    rw [if_pos rfl] at h
    simp only [Prod.mk.injEq] at h
    rw [← h.2.2, ← h.2.1]
    unfold opGetSnapshot currentSnapshot
    simp
  · intro h
    unfold push at h
    simp only [Bool.false_eq_true, if_false, Prod.mk.injEq] at h
    rw [← h.2.2]
    rfl
  · intro h
    unfold opGetSnapshot
    cases hs : op.state with
    | pushed l => exact absurd hs (h l)
    | pending => rfl
    | committed => rfl
    | failed e => rfl
  · intro h
    unfold opGetSnapshot at h
    cases hs : op.state with
    | pushed l =>
      rw [hs] at h
      dsimp only at h
      obtain rfl := (Except.ok.inj h).symm
      exact ⟨rfl, rfl⟩
    | pending => rw [hs] at h; cases h
    | committed => rw [hs] at h; cases h
    | failed e => rw [hs] at h; cases h

/-- Witness for claim C5: a fresh, a committed and a failed operation all
report OperationNotPushed, while the pushed one hands back the newly
published snapshot. -/
theorem c5_operation_get_snapshot_witness :
    opGetSnapshot demoStore (newOp (currentSnapshot demoStore)) =
      Except.error Status.operationNotPushed ∧
    opGetSnapshot c5Pushed.2.1 c5Pushed.2.2 = Except.ok (currentSnapshot c5Pushed.2.1) ∧
    opGetSnapshot demoStore (failOp demoOp Status.storeError) =
      Except.error Status.operationNotPushed ∧
    opGetSnapshot demoStore demoOp = Except.error Status.operationNotPushed := by
  refine ⟨(c5_operation_get_snapshot demoStore demoStore demoOp demoOp
      (currentSnapshot demoStore)).1, ?_, ?_, ?_⟩
  · exact (c5_operation_get_snapshot demoStore c5Pushed.2.1 demoOp c5Pushed.2.2
      (currentSnapshot demoStore)).2.1 rfl
  · exact (c5_operation_get_snapshot demoStore demoStore demoOp
      (failOp demoOp Status.storeError) (currentSnapshot demoStore)).2.2.1 rfl
  · exact (c5_operation_get_snapshot demoStore demoStore demoOp demoOp
      (currentSnapshot demoStore)).2.2.2.1 (fun m h => OpState.noConfusion h)


/-- The store produced by pushing a NewSegmentOperation staging one fresh
segment under partition pid and one segment file under that segment: both
records land in one batch under the freshly allocated LSN. -/
def pushedStore (st : Store) (pid : Nat) : Store :=
  { st with
      records := st.records ++
        [⟨ResType.segment, st.nextId, pid, 0, "", ResState.active, st.nextLsn⟩,
         ⟨ResType.segmentFile, st.nextId + 1, st.nextId, pid, "", ResState.active, st.nextLsn⟩],
      nextId := st.nextId + 2,
      nextLsn := st.nextLsn + 1 }

/-- At or after the push LSN, both batched records are visible. -/
lemma pushedStore_visible (st : Store) (pid n : Nat) (hLn : st.nextLsn ≤ n) :
    getResource (mkSnapshot (pushedStore st pid) n) ResType.segment st.nextId =
      some ⟨ResType.segment, st.nextId, pid, 0, "", ResState.active, st.nextLsn⟩ ∧
    getResource (mkSnapshot (pushedStore st pid) n) ResType.segmentFile (st.nextId + 1) =
      some ⟨ResType.segmentFile, st.nextId + 1, st.nextId, pid, "",
        ResState.active, st.nextLsn⟩ := by
  have hfilter : (mkSnapshot (pushedStore st pid) n).records =
      st.records.filter (fun r => decide (r.lsn ≤ n)) ++
        [⟨ResType.segment, st.nextId, pid, 0, "", ResState.active, st.nextLsn⟩,
         ⟨ResType.segmentFile, st.nextId + 1, st.nextId, pid, "",
           ResState.active, st.nextLsn⟩] := by
    show (st.records ++ _).filter _ = _
    rw [List.filter_append]
    simp [List.filter, decide_eq_true hLn]
  constructor
  · unfold getResource
    rw [hfilter, latestOf_append]
    have hAB : latestOf
        [⟨ResType.segment, st.nextId, pid, 0, "", ResState.active, st.nextLsn⟩,
         ⟨ResType.segmentFile, st.nextId + 1, st.nextId, pid, "",
           ResState.active, st.nextLsn⟩] ResType.segment st.nextId =
        some ⟨ResType.segment, st.nextId, pid, 0, "", ResState.active, st.nextLsn⟩ := by
      have hm1 : matchesRec ResType.segment st.nextId
          ⟨ResType.segment, st.nextId, pid, 0, "", ResState.active, st.nextLsn⟩ = true := by
        simp [matchesRec]
      have hm2 : matchesRec ResType.segment st.nextId
          ⟨ResType.segmentFile, st.nextId + 1, st.nextId, pid, "",
            ResState.active, st.nextLsn⟩ = false := rfl
      unfold latestOf
      simp [latestStep, hm1, hm2]
    rw [hAB]
    rfl
  · unfold getResource
    rw [hfilter, latestOf_append]
    have hAB : latestOf
        [⟨ResType.segment, st.nextId, pid, 0, "", ResState.active, st.nextLsn⟩,
         ⟨ResType.segmentFile, st.nextId + 1, st.nextId, pid, "",
           ResState.active, st.nextLsn⟩] ResType.segmentFile (st.nextId + 1) =
        some ⟨ResType.segmentFile, st.nextId + 1, st.nextId, pid, "",
          ResState.active, st.nextLsn⟩ := by
      have hm1 : matchesRec ResType.segmentFile (st.nextId + 1)
          ⟨ResType.segment, st.nextId, pid, 0, "", ResState.active, st.nextLsn⟩ = false := rfl
      have hm2 : matchesRec ResType.segmentFile (st.nextId + 1)
          ⟨ResType.segmentFile, st.nextId + 1, st.nextId, pid, "",
            ResState.active, st.nextLsn⟩ = true := by
        simp [matchesRec]
      unfold latestOf
      simp [latestStep, hm1, hm2]
    rw [hAB]
    rfl

/-- Before the push LSN, neither batched record is visible. -/
lemma pushedStore_invisible (st : Store) (pid n : Nat) (hwf : wfStore st)
    (hn : n < st.nextLsn) :
    getResource (mkSnapshot (pushedStore st pid) n) ResType.segment st.nextId = none ∧
    getResource (mkSnapshot (pushedStore st pid) n) ResType.segmentFile (st.nextId + 1) =
      none := by
  have hdrop : (mkSnapshot (pushedStore st pid) n).records =
      st.records.filter (fun r => decide (r.lsn ≤ n)) := by
    show (st.records ++ _).filter _ = _
    rw [List.filter_append]
    have hnil : List.filter (fun (r : Record) => decide (r.lsn ≤ n))
        [⟨ResType.segment, st.nextId, pid, 0, "", ResState.active, st.nextLsn⟩,
         ⟨ResType.segmentFile, st.nextId + 1, st.nextId, pid, "",
           ResState.active, st.nextLsn⟩] = [] := by
      simp [List.filter, decide_eq_false (by omega : ¬(st.nextLsn ≤ n))]
    rw [hnil, List.append_nil]
  have hnone : ∀ i, st.nextId ≤ i →
      latestOf (mkSnapshot (pushedStore st pid) n).records ResType.segment i = none ∧
      latestOf (mkSnapshot (pushedStore st pid) n).records ResType.segmentFile i = none := by
    intro i hi
    constructor <;>
    · rw [hdrop]
      apply latestOf_eq_none
      intro r hr
      have hmem : r ∈ st.records := (List.mem_filter.mp hr).1
      have hb := (hwf r hmem).1
      have hne : (r.rid == i) = false := by
        simp only [beq_eq_false_iff_ne, ne_eq]
        omega
      simp [matchesRec, hne]
  constructor
  · unfold getResource
    rw [(hnone st.nextId (Nat.le_refl _)).1]
  · unfold getResource
    rw [(hnone (st.nextId + 1) (by omega)).2]

/-- Claim C1: a NewSegmentOperation staging one Segment and one SegmentFile
and then pushing is atomic — on a successful push the resulting snapshot
contains both records, on a failed push it contains neither, and no
snapshot at any LSN ever shows the Segment without its SegmentFile. -/
theorem c1_segment_file_atomicity (st : Store) (pid : Nat) (okb : Bool)
    {st1 st2 st3 : Store} {op1 op2 op3 : Operation} {segRec fileRec : Record} {s : Status}
    (hwf : wfStore st)
    (h1 : commitNew st (newOp (currentSnapshot st)) ResType.segment pid 0 "" =
      (Status.ok, st1, op1, some segRec))
    (h2 : commitNew st1 op1 ResType.segmentFile segRec.rid pid "" =
      (Status.ok, st2, op2, some fileRec))
    (h3 : push st2 op2 okb = (s, st3, op3)) :
    (s = Status.ok →
      getResource (currentSnapshot st3) ResType.segment segRec.rid =
        some { segRec with lsn := st.nextLsn } ∧
      getResource (currentSnapshot st3) ResType.segmentFile fileRec.rid =
        some { fileRec with lsn := st.nextLsn }) ∧
    (s ≠ Status.ok →
      getResource (currentSnapshot st3) ResType.segment segRec.rid = none ∧
      getResource (currentSnapshot st3) ResType.segmentFile fileRec.rid = none) ∧
    (∀ n, getResource (mkSnapshot st3 n) ResType.segment segRec.rid ≠ none →
      getResource (mkSnapshot st3 n) ResType.segmentFile fileRec.rid ≠ none) := by
  obtain ⟨hst1, hres1, hop1⟩ := commitNew_ok h1
  have hseg : segRec = ⟨ResType.segment, st.nextId, pid, 0, "", ResState.active, 0⟩ :=
    Option.some.inj hres1
  subst hst1
  subst hop1
  subst hseg
  obtain ⟨hst2, hres2, hop2⟩ := commitNew_ok h2
  dsimp only at hres2
  have hfile : fileRec =
      ⟨ResType.segmentFile, st.nextId + 1, st.nextId, pid, "", ResState.active, 0⟩ :=
    Option.some.inj hres2
  subst hst2
  subst hop2
  subst hfile
  cases okb with
  | false =>
    unfold push at h3
    simp only [Bool.false_eq_true, if_false, Prod.mk.injEq] at h3
    obtain ⟨hs, hst3, hop3⟩ := h3
    subst hs
    subst hst3
    have hunusedSeg : ∀ (m : Nat) (t : ResType) (i : Nat), st.nextId ≤ i →
        getResource (mkSnapshot { st with nextId := st.nextId + 1 + 1 } m) t i = none := by
      intro m t i hi
      apply getResource_of_unused
      intro r hr
      have := (hwf r hr).1
      omega
    refine ⟨fun hcontra => absurd hcontra.symm (by simp),
      fun _ => ⟨?_, ?_⟩, fun n hne => ?_⟩
    · exact hunusedSeg _ ResType.segment st.nextId (Nat.le_refl _)
    · exact hunusedSeg _ ResType.segmentFile (st.nextId + 1) (by omega)
    · exact absurd (hunusedSeg n ResType.segment st.nextId (Nat.le_refl _)) hne
  | true =>
    unfold push at h3
    rw [if_pos rfl] at h3
    simp only [Prod.mk.injEq] at h3
    obtain ⟨hs, hst3, hop3⟩ := h3
    subst hs
    subst hst3
    refine ⟨fun _ => ?_, fun hcontra => absurd rfl hcontra, fun n hne => ?_⟩
    · show
        getResource (currentSnapshot (pushedStore st pid)) ResType.segment st.nextId =
          some ⟨ResType.segment, st.nextId, pid, 0, "", ResState.active, st.nextLsn⟩ ∧
        getResource (currentSnapshot (pushedStore st pid)) ResType.segmentFile
            (st.nextId + 1) =
          some ⟨ResType.segmentFile, st.nextId + 1, st.nextId, pid, "",
            ResState.active, st.nextLsn⟩
      have hcur : currentSnapshot (pushedStore st pid) =
          mkSnapshot (pushedStore st pid) st.nextLsn := rfl
      rw [hcur]
      exact pushedStore_visible st pid st.nextLsn (Nat.le_refl _)
    · show getResource (mkSnapshot (pushedStore st pid) n) ResType.segmentFile
          (st.nextId + 1) ≠ none
      by_cases hLn : st.nextLsn ≤ n
      · rw [(pushedStore_visible st pid n hLn).2]
        simp
      · exact absurd ((pushedStore_invisible st pid n hwf (by omega)).1) hne

/-- Witness for claim C1: pushing a new segment and its file over the demo
store makes both visible in the resulting snapshot. -/
theorem c1_segment_file_atomicity_witness :
    getResource (currentSnapshot (pushedStore demoStore 4)) ResType.segment 5 =
      some ⟨ResType.segment, 5, 4, 0, "", ResState.active, 3⟩ ∧
    getResource (currentSnapshot (pushedStore demoStore 4)) ResType.segmentFile 6 =
      some ⟨ResType.segmentFile, 6, 5, 4, "", ResState.active, 3⟩ := by
  exact (c1_segment_file_atomicity demoStore 4 true (by unfold wfStore; decide) rfl rfl rfl).1 rfl

/-- The store produced by pushing a MergeOperation: tombstones for the two
source segment records and one fresh merged segment, all in one batch
under the freshly allocated LSN. -/
def mergedStore (st : Store) (r1 r2 : Record) (pid : Nat) : Store :=
  { st with
      records := st.records ++
        [{ r1 with state := ResState.deleted, lsn := st.nextLsn },
         { r2 with state := ResState.deleted, lsn := st.nextLsn },
         ⟨ResType.segment, st.nextId, pid, 0, "", ResState.active, st.nextLsn⟩],
      nextId := st.nextId + 1,
      nextLsn := st.nextLsn + 1 }

/-- At or after the merge LSN: both sources fold to their tombstones and
are invisible, while the merged segment is visible. -/
lemma mergedStore_after (st : Store) (r1 r2 : Record) (pid n : Nat)
    (hwf : wfStore st) (hmem1 : r1 ∈ st.records) (hmem2 : r2 ∈ st.records)
    (ht1 : r1.rtype = ResType.segment) (ht2 : r2.rtype = ResType.segment)
    (hner : r1.rid ≠ r2.rid) (hLn : st.nextLsn ≤ n) :
    (latestOf (mkSnapshot (mergedStore st r1 r2 pid) n).records
        ResType.segment r1.rid).map Record.state = some ResState.deleted ∧
    (latestOf (mkSnapshot (mergedStore st r1 r2 pid) n).records
        ResType.segment r2.rid).map Record.state = some ResState.deleted ∧
    getResource (mkSnapshot (mergedStore st r1 r2 pid) n) ResType.segment r1.rid = none ∧
    getResource (mkSnapshot (mergedStore st r1 r2 pid) n) ResType.segment r2.rid = none ∧
    getResource (mkSnapshot (mergedStore st r1 r2 pid) n) ResType.segment st.nextId =
      some ⟨ResType.segment, st.nextId, pid, 0, "", ResState.active, st.nextLsn⟩ := by
  have hb1 : r1.rid < st.nextId := (hwf r1 hmem1).1
  have hb2 : r2.rid < st.nextId := (hwf r2 hmem2).1
  have hfilter : (mkSnapshot (mergedStore st r1 r2 pid) n).records =
      st.records.filter (fun r => decide (r.lsn ≤ n)) ++
        [{ r1 with state := ResState.deleted, lsn := st.nextLsn },
         { r2 with state := ResState.deleted, lsn := st.nextLsn },
         ⟨ResType.segment, st.nextId, pid, 0, "", ResState.active, st.nextLsn⟩] := by
    show (st.records ++ _).filter _ = _
    rw [List.filter_append]
    simp [List.filter, decide_eq_true hLn]
  have h21 : (r2.rid == r1.rid) = false := by
    simp only [beq_eq_false_iff_ne, ne_eq]
    omega
  have h12 : (r1.rid == r2.rid) = false := by
    simp only [beq_eq_false_iff_ne, ne_eq]
    omega
  have h31 : (st.nextId == r1.rid) = false := by
    simp only [beq_eq_false_iff_ne, ne_eq]
    omega
  have h32 : (st.nextId == r2.rid) = false := by
    simp only [beq_eq_false_iff_ne, ne_eq]
    omega
  have h13 : (r1.rid == st.nextId) = false := by
    simp only [beq_eq_false_iff_ne, ne_eq]
    omega
  have h23 : (r2.rid == st.nextId) = false := by
    simp only [beq_eq_false_iff_ne, ne_eq]
    omega
  have hL1 : latestOf
      [{ r1 with state := ResState.deleted, lsn := st.nextLsn },
       { r2 with state := ResState.deleted, lsn := st.nextLsn },
       ⟨ResType.segment, st.nextId, pid, 0, "", ResState.active, st.nextLsn⟩]
      ResType.segment r1.rid = some { r1 with state := ResState.deleted, lsn := st.nextLsn } := by
    unfold latestOf
    simp [latestStep, matchesRec, ht1, ht2, h21, h31]
  have hL2 : latestOf
      [{ r1 with state := ResState.deleted, lsn := st.nextLsn },
       { r2 with state := ResState.deleted, lsn := st.nextLsn },
       ⟨ResType.segment, st.nextId, pid, 0, "", ResState.active, st.nextLsn⟩]
      ResType.segment r2.rid = some { r2 with state := ResState.deleted, lsn := st.nextLsn } := by
    unfold latestOf
    simp [latestStep, matchesRec, ht1, ht2, h12, h32]
  have hL3 : latestOf
      [{ r1 with state := ResState.deleted, lsn := st.nextLsn },
       { r2 with state := ResState.deleted, lsn := st.nextLsn },
       ⟨ResType.segment, st.nextId, pid, 0, "", ResState.active, st.nextLsn⟩]
      ResType.segment st.nextId =
      some ⟨ResType.segment, st.nextId, pid, 0, "", ResState.active, st.nextLsn⟩ := by
    unfold latestOf
    simp [latestStep, matchesRec, ht1, ht2, h13, h23]
  refine ⟨?_, ?_, ?_, ?_, ?_⟩
  · rw [hfilter, latestOf_append, hL1]
    rfl
  · rw [hfilter, latestOf_append, hL2]
    rfl
  · unfold getResource
    rw [hfilter, latestOf_append, hL1]
    rfl
  · unfold getResource
    rw [hfilter, latestOf_append, hL2]
    rfl
  · unfold getResource
    rw [hfilter, latestOf_append, hL3]
    rfl

/-- Before the merge LSN, the merged segment does not exist at all. -/
lemma mergedStore_before (st : Store) (r1 r2 : Record) (pid n : Nat)
    (hwf : wfStore st) (hn : n < st.nextLsn) :
    getResource (mkSnapshot (mergedStore st r1 r2 pid) n) ResType.segment st.nextId = none := by
  have hdrop : (mkSnapshot (mergedStore st r1 r2 pid) n).records =
      st.records.filter (fun r => decide (r.lsn ≤ n)) := by
    show (st.records ++ _).filter _ = _
    rw [List.filter_append]
    have hnil : List.filter (fun (r : Record) => decide (r.lsn ≤ n))
        [{ r1 with state := ResState.deleted, lsn := st.nextLsn },
         { r2 with state := ResState.deleted, lsn := st.nextLsn },
         ⟨ResType.segment, st.nextId, pid, 0, "", ResState.active, st.nextLsn⟩] = [] := by
      simp [List.filter, decide_eq_false (by omega : ¬(st.nextLsn ≤ n))]
    rw [hnil, List.append_nil]
  have hnone : latestOf (mkSnapshot (mergedStore st r1 r2 pid) n).records
      ResType.segment st.nextId = none := by
    rw [hdrop]
    apply latestOf_eq_none
    intro r hr
    have hmem : r ∈ st.records := (List.mem_filter.mp hr).1
    have hb := (hwf r hmem).1
    have hne : (r.rid == st.nextId) = false := by
      simp only [beq_eq_false_iff_ne, ne_eq]
      omega
    simp [matchesRec, hne]
  unfold getResource
  rw [hnone]

/-- Claim C6: a MergeOperation tombstoning segments s1 and s2 and creating
the merged segment in one push makes every snapshot at or after the push
LSN fold s1 and s2 to tombstones (both invisible) with the merged segment
visible, and no snapshot at any LSN shows the merged segment while s1 or
s2 is still visible. -/
theorem c6_merge_visibility (st : Store) (pid s1 s2 : Nat)
    {op1 op2 op3 op4 : Operation} {st1 st3 : Store} {s3rec : Record}
    (hwf : wfStore st) (hne : s1 ≠ s2)
    (hd1 : commitDelete (newOp (currentSnapshot st)) ResType.segment s1 = (Status.ok, op1))
    (hd2 : commitDelete op1 ResType.segment s2 = (Status.ok, op2))
    (h3 : commitNew st op2 ResType.segment pid 0 "" = (Status.ok, st1, op3, some s3rec))
    (h4 : push st1 op3 true = (Status.ok, st3, op4)) :
    (∀ n, st.nextLsn ≤ n →
      (latestOf (mkSnapshot st3 n).records ResType.segment s1).map Record.state =
        some ResState.deleted ∧
      (latestOf (mkSnapshot st3 n).records ResType.segment s2).map Record.state =
        some ResState.deleted ∧
      getResource (mkSnapshot st3 n) ResType.segment s1 = none ∧
      getResource (mkSnapshot st3 n) ResType.segment s2 = none ∧
      getResource (mkSnapshot st3 n) ResType.segment s3rec.rid =
        some { s3rec with lsn := st.nextLsn }) ∧
    (∀ n, getResource (mkSnapshot st3 n) ResType.segment s3rec.rid ≠ none →
      getResource (mkSnapshot st3 n) ResType.segment s1 = none ∧
      getResource (mkSnapshot st3 n) ResType.segment s2 = none) := by
  obtain ⟨r1, hg1, hop1⟩ := commitDelete_ok hd1
  obtain ⟨hl1, hs1a, hm1, ht1, hr1id⟩ := getResource_some hg1
  subst hop1
  obtain ⟨r2, hg2, hop2⟩ := commitDelete_ok hd2
  obtain ⟨hl2, hs2a, hm2, ht2, hr2id⟩ := getResource_some hg2
  subst hop2
  obtain ⟨hst1, hres3, hop3⟩ := commitNew_ok h3
  have hs3 : s3rec = ⟨ResType.segment, st.nextId, pid, 0, "", ResState.active, 0⟩ :=
    Option.some.inj hres3
  subst hst1
  subst hop3
  subst hs3
  unfold push at h4
  rw [if_pos rfl] at h4
  simp only [Prod.mk.injEq] at h4
  obtain ⟨-, hst3, hop4⟩ := h4
  subst hst3
  have hmem1 : r1 ∈ st.records := (List.mem_filter.mp hm1).1
  have hmem2 : r2 ∈ st.records := (List.mem_filter.mp hm2).1
  subst hr1id
  subst hr2id
  have hner : r1.rid ≠ r2.rid := hne
  constructor
  · intro n hLn
    exact mergedStore_after st r1 r2 pid n hwf hmem1 hmem2 ht1 ht2 hner hLn
  · intro n hvis
    by_cases hLn : st.nextLsn ≤ n
    · have h := mergedStore_after st r1 r2 pid n hwf hmem1 hmem2 ht1 ht2 hner hLn
      exact ⟨h.2.2.1, h.2.2.2.1⟩
    · exact absurd (mergedStore_before st r1 r2 pid n hwf (by omega)) hvis

/-- The store after merging the two segments of the merge store. -/
def c6PushedStore : Store :=
  ⟨[⟨ResType.collection, 1, 0, 0, "c1", ResState.active, 1⟩,
    ⟨ResType.partition, 2, 1, 0, "p1", ResState.active, 1⟩,
    ⟨ResType.segment, 3, 2, 0, "", ResState.active, 2⟩,
    ⟨ResType.segment, 4, 2, 0, "", ResState.active, 2⟩,
    ⟨ResType.segment, 3, 2, 0, "", ResState.deleted, 3⟩,
    ⟨ResType.segment, 4, 2, 0, "", ResState.deleted, 3⟩,
    ⟨ResType.segment, 5, 2, 0, "", ResState.active, 3⟩], 6, 4⟩

/-- Witness for claim C6: merging segments 3 and 4 of the merge store into
segment 5 hides both sources and shows the merged one at LSN 3. -/
theorem c6_merge_visibility_witness :
    getResource (mkSnapshot c6PushedStore 3) ResType.segment 3 = none ∧
    getResource (mkSnapshot c6PushedStore 3) ResType.segment 4 = none ∧
    getResource (mkSnapshot c6PushedStore 3) ResType.segment 5 =
      some ⟨ResType.segment, 5, 2, 0, "", ResState.active, 3⟩ := by
  have h := c6_merge_visibility mergeStore 2 3 4 (by unfold wfStore; decide) (by decide)
    rfl rfl rfl rfl
  exact ⟨(h.1 3 (Nat.le_refl 3)).2.2.1, (h.1 3 (Nat.le_refl 3)).2.2.2.1,
    (h.1 3 (Nat.le_refl 3)).2.2.2.2⟩
